import Mathlib

/-!
Shallow embedding of the client-side tabular data engine
(src/utils/table-helpers.ts and src/components/DataTable.tsx):
record filtering, sorting, pagination, the view-state transitions and
the fetch-resolution handler, together with proofs of the spec's
testable properties.

JavaScript host semantics that the embedding models explicitly:
* `String.prototype.includes`  — substring containment (jsIncludes);
* `String.prototype.trim`      — strips WhiteSpace/LineTerminator code
  points from both ends (jsTrim);
* `Array.prototype.slice`      — negative indices count from the end of
  the array (jsSlice);
* `Array.prototype.sort`       — stable since ES2019; for a consistent
  comparator its output is the unique stable order, realized here by a
  stable insertion sort (stableSortBy);
* React state setters          — a state update on an unmounted
  component is discarded, modelled by a `mounted` flag guard.
-/

namespace TableAssignment

/-- The `User` record interface of src/utils/table-helpers.ts:
`gender`, `name.{title, first, last}`, `email`, `dob.{date, age}`. -/
structure UserName where
  title : String
  first : String
  last : String
deriving Repr, DecidableEq

structure Dob where
  date : String
  age : Nat
deriving Repr, DecidableEq

structure User where
  gender : String
  name : UserName
  email : String
  dob : Dob
deriving Repr, DecidableEq

/-- The `SortKey` union type: "name.first" | "gender" | "dob.age" | "email". -/
inductive SortKey where
  | nameFirst
  | gender
  | dobAge
  | email
deriving Repr, DecidableEq

/-- A sort direction that is present (the component's state only ever
holds "asc" or "desc"); the `SortDirection` union's `null` case is
modelled as `Option Dir = none` where it can occur. -/
inductive Dir where
  | asc
  | desc
deriving Repr, DecidableEq

/-- ECMAScript WhiteSpace and LineTerminator code points, the set
stripped by `String.prototype.trim`. -/
def jsIsWhite (c : Char) : Bool :=
  c.val = 9 ∨ c.val = 10 ∨ c.val = 11 ∨ c.val = 12 ∨ c.val = 13 ∨
  c.val = 32 ∨ c.val = 160 ∨ c.val = 5760 ∨
  (8192 ≤ c.val ∧ c.val ≤ 8202) ∨ c.val = 8232 ∨ c.val = 8233 ∨
  c.val = 8239 ∨ c.val = 8287 ∨ c.val = 12288 ∨ c.val = 65279

/-- `String.prototype.trim`: drop leading and trailing JS whitespace. -/
def jsTrim (s : String) : String :=
  String.mk (((s.data.dropWhile jsIsWhite).reverse.dropWhile jsIsWhite).reverse)

/-- `hay.includes(needle)`: substring containment of JS strings. -/
def jsIncludes (hay needle : String) : Bool :=
  decide (needle.data <:+: hay.data)

/-- `age.toString()`: the decimal string form of the (integer) age. -/
def jsNatToString (n : Nat) : String := toString n

/-- The per-record match predicate inside `filterUsers` (the body of the
`users.filter` callback, src/utils/table-helpers.ts lines 22-42). -/
def userMatches (searchStr : String) (user : User) : Bool :=
  let firstName := user.name.first
  let lastName := user.name.last
  let fullName := firstName ++ " " ++ lastName
  let gender := user.gender
  let email := user.email
  let age := jsNatToString user.dob.age
  -- Specific logic for gender to avoid male/female overlap issues:
  -- if searching exactly for "male", only gender === "male" matches.
  let genderMatch :=
    if searchStr = "male" then gender = "male" else jsIncludes gender searchStr
  jsIncludes firstName searchStr ||
  jsIncludes lastName searchStr ||
  jsIncludes fullName searchStr ||
  genderMatch ||
  jsIncludes email searchStr ||
  jsIncludes age searchStr

/-- `filterUsers` (src/utils/table-helpers.ts lines 18-43): trim the
query; an empty trimmed query returns the input unchanged; otherwise
keep the records satisfying `userMatches`. -/
def filterUsers (users : List User) (query : String) : List User :=
  let searchStr := jsTrim query
  if searchStr = "" then users
  else users.filter (userMatches searchStr)

/-- The `string | number` return type of `getSortValue`. -/
inductive SortVal where
  | str (s : String)
  | num (n : Nat)
deriving Repr, DecidableEq

/-- The JS `<` comparison as used by the sort comparator: code-unit
lexicographic on strings (modelled as the lexicographic order on the
code-point list), numeric on numbers. For a fixed sort key both operands
always have the same shape, so the mixed cases (where JS would coerce)
are unreachable; they are mapped to `false`. -/
def slt : SortVal → SortVal → Bool
  | .str a, .str b => decide (a.data < b.data)
  | .num a, .num b => decide (a < b)
  | .str _, .num _ => false
  | .num _, .str _ => false

/-- `String.prototype.toLowerCase`, restricted to the ASCII case mapping
(the only code points at play in the repository's data model). -/
def jsToLower (s : String) : String :=
  String.mk (s.data.map Char.toLower)

/-- `getSortValue` (src/utils/table-helpers.ts lines 48-56): the derived
comparison key. The `default` arm returning `""` is unreachable since
`SortKey` is exhaustive. -/
def getSortValue (user : User) (key : SortKey) : SortVal :=
  match key with
  | .nameFirst => .str (jsToLower user.name.first)
  | .gender => .str (jsToLower user.gender)
  | .dobAge => .num user.dob.age
  | .email => .str (jsToLower user.email)

/-- The comparator closure passed to `.sort` inside `sortUsers`
(src/utils/table-helpers.ts lines 69-75). -/
def compareUsers (key : SortKey) (direction : Dir) (a b : User) : Int :=
  let aValue := getSortValue a key
  let bValue := getSortValue b key
  if slt aValue bValue then (if direction = .asc then -1 else 1)
  else if slt bValue aValue then (if direction = .asc then 1 else -1)
  else 0

/-- Insert `a` into `l`, stopping at the first element `b` with
`cmp a b ≤ 0`: the inserted element goes before every later-in-input
element it ties with. -/
def insertCmp (cmp : α → α → Int) (a : α) : List α → List α
  | [] => [a]
  | b :: l => if cmp a b ≤ 0 then a :: b :: l else b :: insertCmp cmp a l

/-- `Array.prototype.sort(cmp)` on a copy of the input. ECMAScript
requires the sort to be stable (ES2019), and for a consistent comparator
the stable sorted order is unique; it is realized here by stable
insertion sort. -/
def stableSortBy (cmp : α → α → Int) : List α → List α
  | [] => []
  | a :: l => insertCmp cmp a (stableSortBy cmp l)

/-- `sortUsers` (src/utils/table-helpers.ts lines 61-76): a null
direction returns the input unchanged (`!key` is never true for a valid
`SortKey`); otherwise sort a copy with the comparator. -/
def sortUsers (users : List User) (sortConfig : SortKey × Option Dir) : List User :=
  match sortConfig.2 with
  | none => users
  | some direction => stableSortBy (compareUsers sortConfig.1 direction) users

/-- `Array.prototype.slice(start, end)`: negative indices count from the
end of the array; the result is the elements from the resolved start
(inclusive) to the resolved end (exclusive). -/
def jsSlice (l : List α) (start stop : Int) : List α :=
  let len : Int := l.length
  let s := if start < 0 then max (len + start) 0 else min start len
  let e := if stop < 0 then max (len + stop) 0 else min stop len
  (l.take e.toNat).drop s.toNat

/-- `paginateData` (src/utils/table-helpers.ts lines 81-84):
`data.slice((page-1)*pageSize, (page-1)*pageSize + pageSize)`. -/
def paginateData (data : List α) (page pageSize : Int) : List α :=
  let start := (page - 1) * pageSize
  jsSlice data start (start + pageSize)

/-- The component's sort configuration state: after initialization the
direction is always "asc" or "desc", never null
(src/components/DataTable.tsx lines 42-45). -/
structure SortCfg where
  key : SortKey
  direction : Dir
deriving Repr, DecidableEq

/-- The view-facing state owned by `DataTable`: `searchQuery`,
`debouncedQuery`, `sortConfig`, `currentPage`
(src/components/DataTable.tsx lines 39-46). -/
structure ViewState where
  searchQuery : String
  debouncedQuery : String
  sortConfig : SortCfg
  currentPage : Int
deriving Repr, DecidableEq

/-- The search input's `onChange` handler (src/components/DataTable.tsx
lines 126-129): `setSearchQuery(e.target.value); setCurrentPage(1)`. -/
def onSearchChange (value : String) (st : ViewState) : ViewState :=
  { st with searchQuery := value, currentPage := 1 }

/-- The debounce effect's timer callback (src/components/DataTable.tsx
lines 50-56): after 300ms with no further `searchQuery` change,
`setDebouncedQuery(searchQuery)`. It touches no other field. -/
def debounceCommit (st : ViewState) : ViewState :=
  { st with debouncedQuery := st.searchQuery }

/-- `handleSort` (src/components/DataTable.tsx lines 82-88):
`setSortConfig(prev => ({key, direction: prev.key === key &&
prev.direction === "asc" ? "desc" : "asc"}))` then
`setCurrentPage(1)`. -/
def handleSort (key : SortKey) (st : ViewState) : ViewState :=
  { st with
    sortConfig :=
      { key := key
        direction :=
          if st.sortConfig.key = key ∧ st.sortConfig.direction = .asc
          then .desc else .asc }
    currentPage := 1 }

/-- The direction flip described by the spec: ascending and descending
exchange. -/
def flipDir : Dir → Dir
  | .asc => .desc
  | .desc => .asc

/-- The component's fetch-related state (`users`, `loading`, `error`)
together with a `mounted` flag modelling whether the React component is
still mounted: React discards state updates issued after unmount. -/
structure CompState where
  users : List User
  loading : Bool
  error : Option String
  mounted : Bool
deriving Repr, DecidableEq

/-- `setUsers` as observed through React: a no-op after unmount. -/
def setUsersR (v : List User) (st : CompState) : CompState :=
  if st.mounted then { st with users := v } else st

/-- `setError` as observed through React: a no-op after unmount. -/
def setErrorR (v : Option String) (st : CompState) : CompState :=
  if st.mounted then { st with error := v } else st

/-- `setLoading` as observed through React: a no-op after unmount. -/
def setLoadingR (v : Bool) (st : CompState) : CompState :=
  if st.mounted then { st with loading := v } else st

/-- How one fetch attempt resolves: parsed results arrived; the request
was aborted (the `AbortController` fired, e.g. on unmount); or it failed
with a message (non-ok status, network or parse error). -/
inductive FetchOutcome where
  | success (results : List User)
  | aborted
  | failure (msg : String)
deriving Repr, DecidableEq

/-- The resolution path of `fetchUsers` (src/components/DataTable.tsx
lines 61-76): the try-arm stores the results; the catch-arm returns
early on `AbortError` and otherwise stores the message; the finally-arm
always runs `setLoading(false)` (in JS, also after an early return). -/
def fetchResolve (outcome : FetchOutcome) (st : CompState) : CompState :=
  let st1 :=
    match outcome with
    | .success results => setUsersR results st
    | .aborted => st
    | .failure msg => setErrorR (some msg) st
  setLoadingR false st1

/-- A sample record whose gender is "female" and whose email contains
the substring "male" (inside "female"), while no other searched field
contains "male". -/
def rFem : User :=
  { gender := "female"
    name := { title := "Ms", first := "Ava", last := "Stone" }
    email := "female@x.com"
    dob := { date := "1994-01-01", age := 30 } }

/-- A sample record with gender "male" (first of a tied pair). -/
def rBo : User :=
  { gender := "male"
    name := { title := "Mr", first := "Bo", last := "Reed" }
    email := "b@x.com"
    dob := { date := "1999-01-01", age := 25 } }

/-- A second, distinct record with gender "male" (tied with `rBo` on
the gender sort key). -/
def rCal : User :=
  { gender := "male"
    name := { title := "Mr", first := "Cal", last := "Hale" }
    email := "c@x.com"
    dob := { date := "1984-01-01", age := 40 } }

/-- A sample view state sitting on page 3. -/
def vs3 : ViewState :=
  { searchQuery := "a"
    debouncedQuery := "a"
    sortConfig := { key := .nameFirst, direction := .asc }
    currentPage := 3 }

end TableAssignment

namespace TableAssignment

/-- C9: a query that is empty after trimming leaves the record list
unchanged: `filterUsers users query = users`. -/
theorem filterUsers_empty_query (users : List User) (query : String)
    (h : jsTrim query = "") : filterUsers users query = users := by
  simp [filterUsers, h]

/-- Witness for C9 at a whitespace-only query and a one-record list. -/
theorem filterUsers_empty_query_wit :
    jsTrim "  " = "" ∧ filterUsers [rFem] "  " = [rFem] :=
  ⟨by decide, filterUsers_empty_query [rFem] "  " (by decide)⟩

/-- C10: `filterUsers` returns a sublist of its input (order-preserving,
multiplicity-respecting selection), and filtering twice with the same
query equals filtering once. -/
theorem filterUsers_sublist_and_idem (users : List User) (query : String) :
    (filterUsers users query).Sublist users ∧
      filterUsers (filterUsers users query) query = filterUsers users query := by
  by_cases h : jsTrim query = ""
  · simp [filterUsers, h]
  · refine ⟨?_, ?_⟩
    · simp only [filterUsers, if_neg h]
      exact List.filter_sublist users
    · simp only [filterUsers, if_neg h, List.filter_filter, Bool.and_self]

/-- C3 counterexample: at a state on page 3, the claim's two parts both
fail: the search-input change handler itself resets `currentPage` to 1
(so the page does NOT stay at 3), and the debounce commit leaves
`currentPage` at 3 (it does NOT reset it to 1). -/
theorem searchChange_resets_page_cex :
    ¬ ((onSearchChange "ab" vs3).currentPage = vs3.currentPage ∧
       (debounceCommit vs3).currentPage = 1) := by
  decide

/-- C3 amended: the search-input change handler sets `searchQuery` and
immediately resets `currentPage` to 1, leaving `debouncedQuery` and
`sortConfig` alone; the debounce commit only copies `searchQuery` into
`debouncedQuery`, leaving `currentPage` (and everything else)
untouched. -/
theorem searchChange_and_debounce_fields (st : ViewState) (value : String) :
    (onSearchChange value st).searchQuery = value ∧
    (onSearchChange value st).currentPage = 1 ∧
    (onSearchChange value st).debouncedQuery = st.debouncedQuery ∧
    (onSearchChange value st).sortConfig = st.sortConfig ∧
    (debounceCommit st).debouncedQuery = st.searchQuery ∧
    (debounceCommit st).currentPage = st.currentPage ∧
    (debounceCommit st).searchQuery = st.searchQuery ∧
    (debounceCommit st).sortConfig = st.sortConfig := by
  simp [onSearchChange, debounceCommit]

/-- C6: `handleSort key` keeps the key and flips the direction when
`key` is the current sort key, otherwise installs `key` with ascending
direction; in every case the page is reset to 1. -/
theorem handleSort_spec (st : ViewState) (key : SortKey) :
    handleSort key st =
      { st with
        sortConfig :=
          { key := key
            direction :=
              if st.sortConfig.key = key then flipDir st.sortConfig.direction
              else .asc }
        currentPage := 1 } := by
  by_cases h : st.sortConfig.key = key <;>
    cases hd : st.sortConfig.direction <;>
      simp [handleSort, flipDir, h, hd]

/-- C2: when the consumer has unmounted before the fetch completes (the
effect cleanup aborted the request, and React discards state updates on
an unmounted component), the aborted attempt's resolution changes no
field of the fetch state: the catch-arm returns early on `AbortError`
(so `error` and `users` are untouched even in the mounted model) and the
finally-arm's `setLoading(false)` is discarded post-unmount. -/
theorem fetch_abort_no_transition (st : CompState) (h : st.mounted = false) :
    fetchResolve .aborted st = st := by
  simp [fetchResolve, setLoadingR, h]

/-- Witness for C2: a concrete unmounted, still-loading state is left
exactly as it is by the aborted attempt's resolution. -/
theorem fetch_abort_no_transition_wit :
    ({ users := [], loading := true, error := none,
       mounted := false } : CompState).mounted = false ∧
    fetchResolve .aborted
      { users := [], loading := true, error := none, mounted := false } =
      { users := [], loading := true, error := none, mounted := false } :=
  ⟨rfl, fetch_abort_no_transition _ rfl⟩

/-- C1 counterexample: `filterUsers R "male"` can include a record whose
gender is "female": the gender test itself rejects it, but the record
still matches because its email "female@x.com" contains the substring
"male". -/
theorem filterUsers_male_includes_female_cex :
    rFem.gender = "female" ∧ rFem ∈ filterUsers [rFem] "male" := by
  decide

/-- C1 amended: for the query "male", a record with gender "female" is
never included on the strength of its gender field: if such a record is
in the output, then one of the non-gender fields (first name, last name,
joined full name, email, or the decimal age string) contains the
substring "male". -/
theorem filterUsers_male_female_only_other_fields (users : List User) (u : User)
    (hmem : u ∈ filterUsers users "male") (hg : u.gender = "female") :
    (jsIncludes u.name.first "male" || jsIncludes u.name.last "male" ||
     jsIncludes (u.name.first ++ " " ++ u.name.last) "male" ||
     jsIncludes u.email "male" ||
     jsIncludes (jsNatToString u.dob.age) "male") = true := by
  have hne : jsTrim "male" ≠ "" := by decide
  have ht : jsTrim "male" = "male" := by decide
  have hmem' : u ∈ users.filter (userMatches "male") := by
    rw [filterUsers, if_neg hne, ht] at hmem
    exact hmem
  have hm : userMatches "male" u = true := (List.mem_filter.mp hmem').2
  simp only [userMatches, hg, if_pos rfl] at hm
  simpa using hm

/-- Witness for the amended C1 at the record `rFem`: it is in the output
for query "male", its gender is "female", and indeed its email carries
the match. -/
theorem filterUsers_male_female_only_other_fields_wit :
    rFem ∈ filterUsers [rFem] "male" ∧ rFem.gender = "female" ∧
    (jsIncludes rFem.name.first "male" || jsIncludes rFem.name.last "male" ||
     jsIncludes (rFem.name.first ++ " " ++ rFem.name.last) "male" ||
     jsIncludes rFem.email "male" ||
     jsIncludes (jsNatToString rFem.dob.age) "male") = true :=
  ⟨by decide, rfl,
    filterUsers_male_female_only_other_fields [rFem] rFem (by decide) rfl⟩

/-- The JS `<` on derived sort values is irreflexive. -/
theorem slt_irrefl (v : SortVal) : slt v v = false := by
  cases v <;> simp [slt]

/-- The JS `<` on derived sort values is asymmetric. -/
theorem slt_asymm {x y : SortVal} (h : slt x y = true) : slt y x = false := by
  cases x <;> cases y <;> simp_all [slt] <;> exact le_of_lt h

/-- The comparator is consistent: when `a` does not sort at-or-before
`b`, then `b` sorts at-or-before `a`. -/
theorem compareUsers_total (k : SortKey) (d : Dir) (a b : User)
    (h : ¬ compareUsers k d a b ≤ 0) : compareUsers k d b a ≤ 0 := by
  unfold compareUsers at h ⊢
  cases hab : slt (getSortValue a k) (getSortValue b k) <;>
    cases hba : slt (getSortValue b k) (getSortValue a k)
  · cases d <;> simp_all
  · cases d <;> simp_all
  · cases d <;> simp_all
  · have h2 := slt_asymm hab
    rw [hba] at h2
    cases h2

/-- Inserting into a comparator-sorted list keeps it sorted, provided
the comparator is consistent. -/
theorem chain'_insertCmp (cmp : α → α → Int)
    (htot : ∀ x y, ¬ cmp x y ≤ 0 → cmp y x ≤ 0) (a : α) :
    ∀ l : List α, l.Chain' (fun x y => cmp x y ≤ 0) →
      (insertCmp cmp a l).Chain' (fun x y => cmp x y ≤ 0) := by
  intro l
  induction l with
  | nil => intro _; simp [insertCmp]
  | cons b t ih =>
    intro hl
    rw [insertCmp]
    by_cases h : cmp a b ≤ 0
    · rw [if_pos h]
      exact List.chain'_cons.mpr ⟨h, hl⟩
    · rw [if_neg h]
      have hins := ih hl.tail
      cases t with
      | nil =>
        simp only [insertCmp] at hins ⊢
        exact List.chain'_cons.mpr ⟨htot a b h, hins⟩
      | cons c t' =>
        rw [insertCmp] at hins ⊢
        by_cases h2 : cmp a c ≤ 0
        · rw [if_pos h2] at hins ⊢
          exact List.chain'_cons.mpr ⟨htot a b h, hins⟩
        · rw [if_neg h2] at hins ⊢
          exact List.chain'_cons.mpr ⟨(List.chain'_cons.mp hl).1, hins⟩

/-- The stable sort produces a list whose adjacent pairs satisfy
`cmp x y ≤ 0`, for a consistent comparator. -/
theorem chain'_stableSortBy (cmp : α → α → Int)
    (htot : ∀ x y, ¬ cmp x y ≤ 0 → cmp y x ≤ 0) :
    ∀ l : List α, (stableSortBy cmp l).Chain' (fun x y => cmp x y ≤ 0) := by
  intro l
  induction l with
  | nil => simp [stableSortBy]
  | cons a t ih =>
    rw [stableSortBy]
    exact chain'_insertCmp cmp htot a _ ih

/-- In ascending mode, `compareUsers k .asc a b ≤ 0` means the derived
key of `b` is not below the derived key of `a`. -/
theorem compareUsers_le_asc {k : SortKey} {a b : User}
    (h : compareUsers k .asc a b ≤ 0) :
    slt (getSortValue b k) (getSortValue a k) = false := by
  unfold compareUsers at h
  cases hab : slt (getSortValue a k) (getSortValue b k)
  · cases hba : slt (getSortValue b k) (getSortValue a k)
    · rfl
    · simp_all
  · exact slt_asymm hab

/-- In descending mode, `compareUsers k .desc a b ≤ 0` means the derived
key of `a` is not below the derived key of `b`. -/
theorem compareUsers_le_desc {k : SortKey} {a b : User}
    (h : compareUsers k .desc a b ≤ 0) :
    slt (getSortValue a k) (getSortValue b k) = false := by
  unfold compareUsers at h
  cases hab : slt (getSortValue a k) (getSortValue b k)
  · rfl
  · simp_all

/-- C7: sorting orders by the derived key: in every ascending output,
each adjacent pair `(a, b)` has `key a ≤ key b` (stated as "`key b` is
not less than `key a`" in the total order modelling JS `<`), and in
every descending output `key a ≥ key b`. -/
theorem sortUsers_adjacent_ordered (users : List User) (k : SortKey) :
    ((sortUsers users (k, some .asc)).Chain'
      (fun a b => slt (getSortValue b k) (getSortValue a k) = false)) ∧
    ((sortUsers users (k, some .desc)).Chain'
      (fun a b => slt (getSortValue a k) (getSortValue b k) = false)) := by
  constructor
  · exact List.Chain'.imp (fun a b h => compareUsers_le_asc h)
      (chain'_stableSortBy _ (compareUsers_total k .asc) users)
  · exact List.Chain'.imp (fun a b h => compareUsers_le_desc h)
      (chain'_stableSortBy _ (compareUsers_total k .desc) users)

/-- Filtering past an insertion: when every pair of `p`-elements ties or
sorts in insertion order, inserting `a` either prepends it to the
filtered list (if `p a`) or leaves the filtered list alone. -/
theorem filter_insertCmp (p : α → Bool) (cmp : α → α → Int) (a : α)
    (h : ∀ b, p a = true → p b = true → cmp a b ≤ 0) :
    ∀ l : List α, (insertCmp cmp a l).filter p =
      if p a then a :: l.filter p else l.filter p := by
  intro l
  induction l with
  | nil =>
    simp only [insertCmp, List.filter_nil]
    cases hpa : p a <;> simp [List.filter_cons, hpa]
  | cons b t ih =>
    rw [insertCmp]
    by_cases hab : cmp a b ≤ 0
    · rw [if_pos hab]
      cases hpa : p a <;> simp [List.filter_cons, hpa]
    · rw [if_neg hab]
      cases hpa : p a <;> cases hpb : p b
      · simp [List.filter_cons, hpa, hpb, ih]
      · simp [List.filter_cons, hpa, hpb, ih]
      · simp [List.filter_cons, hpa, hpb, ih]
      · exact absurd (h b hpa hpb) hab

/-- The stable sort leaves the relative order of any class of mutually
tied (or never-reordered) elements untouched. -/
theorem filter_stableSortBy (p : α → Bool) (cmp : α → α → Int)
    (hcons : ∀ a b, p a = true → p b = true → cmp a b ≤ 0) :
    ∀ l : List α, (stableSortBy cmp l).filter p = l.filter p := by
  intro l
  induction l with
  | nil => simp [stableSortBy]
  | cons a t ih =>
    rw [stableSortBy, filter_insertCmp p cmp a (fun b => hcons a b)]
    cases hpa : p a <;> simp [List.filter_cons, hpa, ih]

/-- Records with equal derived keys compare as 0: the comparator offers
no tie-breaking of its own. -/
theorem compareUsers_eq_zero {k : SortKey} (d : Dir) {a b : User}
    (h : getSortValue a k = getSortValue b k) :
    compareUsers k d a b = 0 := by
  simp [compareUsers, h, slt_irrefl]

/-- C4 counterexample: the implementation does not break ties by
original index — the comparator returns 0 in both argument orders on two
distinct records with equal derived keys, so all stability comes from
the host sort primitive (stable per ES2019), against the claim's
"forces this stability ... rather than relying on the host sort
primitive". The tied pair does keep its input order in the output. -/
theorem sortUsers_no_tiebreak_cex :
    compareUsers .gender .asc rBo rCal = 0 ∧
    compareUsers .gender .asc rCal rBo = 0 ∧ rBo ≠ rCal ∧
    sortUsers [rBo, rCal] (.gender, some .asc) = [rBo, rCal] := by
  decide

/-- C4 amended: the sort is stable — for every derived-key value `v`,
the records whose key equals `v` appear in the output in exactly their
input order — but the stability is inherited from the (ES2019-stable)
host sort primitive rather than forced by index tie-breaking. -/
theorem sortUsers_stable (users : List User) (k : SortKey) (d : Dir) (v : SortVal) :
    (sortUsers users (k, some d)).filter (fun u => getSortValue u k = v) =
      users.filter (fun u => getSortValue u k = v) := by
  refine filter_stableSortBy _ _ ?_ users
  intro a b ha hb
  have ha' : getSortValue a k = v := of_decide_eq_true ha
  have hb' : getSortValue b k = v := of_decide_eq_true hb
  rw [compareUsers_eq_zero d (ha'.trans hb'.symm)]

/-- For `page ≥ 1` and `pageSize ≥ 0`, `paginateData` is exactly
"drop the first `(page-1)*pageSize` records, then take up to
`pageSize`". -/
theorem paginateData_eq_drop_take (l : List α) (page s : Int)
    (hp : 1 ≤ page) (hs : 0 ≤ s) :
    paginateData l page s = (l.drop ((page - 1) * s).toNat).take s.toNat := by
  have hstart : 0 ≤ (page - 1) * s := mul_nonneg (by omega) hs
  simp only [paginateData, jsSlice]
  rw [if_neg (by omega), if_neg (by omega)]
  set L := l.length with hL
  set st := (page - 1) * s with hst
  have h1 : (min st (L : Int)).toNat = min st.toNat L := by omega
  have h2 : (min (st + s) (L : Int)).toNat = min (st.toNat + s.toNat) L := by
    omega
  rw [h1, h2]
  rw [List.drop_take]
  by_cases hc : st.toNat ≤ L
  · rw [min_eq_left hc]
    by_cases hc2 : st.toNat + s.toNat ≤ L
    · rw [min_eq_left hc2]
      congr 1
      omega
    · rw [min_eq_right (by omega)]
      have hlen : (l.drop st.toNat).length = L - st.toNat := by
        simp [List.length_drop]
      rw [show L - st.toNat = min s.toNat (L - st.toNat) by omega]
      rw [← hlen, ← List.take_take, List.take_length]
  · rw [min_eq_right (by omega), min_eq_right (by omega)]
    have hnil1 : l.drop st.toNat = ([] : List α) :=
      List.drop_eq_nil_of_le (by omega)
    rw [hnil1]
    simp

/-- C5 counterexample: `paginateData` does not clamp page values below
1. For `page = -1`, `pageSize = 5` on a 7-element list, the negative
slice start `-10` is interpreted by JS `slice` relative to the end of
the array, yielding the first two elements — neither the empty list (no
records exist in the claimed range `[-10, -5)`) nor a start-clamped
first page. -/
theorem paginateData_no_clamp_cex :
    paginateData ([0, 1, 2, 3, 4, 5, 6] : List Nat) (-1) 5 = [0, 1] ∧
    ([0, 1] : List Nat) ≠ [] ∧
    ([0, 1] : List Nat) ≠ [0, 1, 2, 3, 4] := by
  decide

/-- C5 amended: for every `page ≥ 1` and `pageSize ≥ 0`, `paginateData`
returns the contiguous slice `[(page-1)*pageSize, page*pageSize)`,
truncated to as many records as exist (possibly empty) and never
erroring; there is no defensive clamping for `page < 1`, where JS
`slice` negative-index semantics take over instead. -/
theorem paginateData_slice_in_range (l : List α) (page s : Int)
    (hp : 1 ≤ page) (hs : 0 ≤ s) :
    paginateData l page s = (l.drop ((page - 1) * s).toNat).take s.toNat :=
  paginateData_eq_drop_take l page s hp hs

/-- Witness for the amended C5 at page 2, pageSize 5 of a 7-element
list: the slice is the trailing two records. -/
theorem paginateData_slice_in_range_wit :
    (1 : Int) ≤ 2 ∧ (0 : Int) ≤ 5 ∧
    paginateData ([0, 1, 2, 3, 4, 5, 6] : List Nat) 2 5 =
      (([0, 1, 2, 3, 4, 5, 6] : List Nat).drop
        (((2 : Int) - 1) * 5).toNat).take (5 : Int).toNat :=
  ⟨by decide, by decide,
    paginateData_slice_in_range [0, 1, 2, 3, 4, 5, 6] 2 5 (by decide) (by decide)⟩

/-- Concatenating `k` successive `pageSize`-sized chunks of a list
reconstructs it once `k * pageSize` covers its length. -/
theorem join_pages_aux (s : Nat) :
    ∀ (k : Nat) (l : List α), l.length ≤ k * s →
      ((List.range k).map (fun i => (l.drop (i * s)).take s)).flatten = l := by
  intro k
  induction k with
  | zero =>
    intro l hl
    have : l = [] := List.eq_nil_of_length_eq_zero (by omega)
    simp [this]
  | succ k ih =>
    intro l hl
    rw [List.range_succ_eq_map, List.map_cons, List.map_map, List.flatten_cons]
    have hmap : (List.range k).map
          ((fun i => (l.drop (i * s)).take s) ∘ Nat.succ) =
        (List.range k).map (fun i => ((l.drop s).drop (i * s)).take s) := by
      refine List.map_congr_left ?_
      intro i _
      simp only [Function.comp]
      rw [List.drop_drop, Nat.succ_mul, Nat.add_comm (i * s) s]
    have hsm : (k + 1) * s = k * s + s := Nat.succ_mul k s
    have hlen2 : (l.drop s).length ≤ k * s := by
      rw [hsm] at hl
      rw [List.length_drop]
      exact Nat.sub_le_iff_le_add.mpr hl
    rw [hmap, ih (l.drop s) hlen2]
    simp

/-- C8: for every list and every `pageSize > 0`, concatenating
`paginateData` applied to pages `1, 2, …, ceil(length / pageSize)`
reconstructs the list exactly — no record duplicated, none omitted. -/
theorem paginateData_coverage (l : List α) (s : Nat) (hs : 0 < s) :
    ((List.range ((l.length + s - 1) / s)).map
        (fun (i : Nat) => paginateData l ((i : Int) + 1) (s : Int))).flatten = l := by
  have hrw : ∀ i : Nat, paginateData l ((i : Int) + 1) (s : Int) =
      (l.drop (i * s)).take s := by
    intro i
    rw [paginateData_eq_drop_take l _ _ (by omega) (by omega)]
    have h1 : ((i : Int) + 1 - 1) * (s : Int) = ((i * s : Nat) : Int) := by
      push_cast
      ring
    rw [h1, Int.toNat_natCast, Int.toNat_natCast]
  have hl : l.length ≤ ((l.length + s - 1) / s) * s := by
    rcases Nat.eq_zero_or_pos l.length with h0 | h0
    · simp [h0]
    · have h1 : l.length + s - 1 = (l.length - 1) + s := by omega
      rw [h1, Nat.add_div_right _ hs, Nat.succ_mul]
      have h2 := Nat.div_add_mod (l.length - 1) s
      have h3 : (l.length - 1) % s < s := Nat.mod_lt _ hs
      rw [Nat.mul_comm] at h2
      generalize hm : (l.length - 1) / s * s = m at h2 ⊢
      omega
  rw [List.map_congr_left (fun i _ => hrw i)]
  exact join_pages_aux s ((l.length + s - 1) / s) l hl

/-- Witness for C8 with a 3-element list and pageSize 2: pages 1 and 2
concatenate back to the list. -/
theorem paginateData_coverage_wit :
    (0 < 2) ∧
    ((List.range ((([10, 20, 30] : List Nat).length + 2 - 1) / 2)).map
        (fun (i : Nat) =>
          paginateData ([10, 20, 30] : List Nat) ((i : Int) + 1) (2 : Int))).flatten =
      [10, 20, 30] :=
  ⟨by decide, paginateData_coverage [10, 20, 30] 2 (by decide)⟩

end TableAssignment
